import Mathlib

/-!
Verification model of the opfs-project overlay filesystem.

Shallow embedding of the core of the repository:
* `src/fuse.rs`       — fuse-link sentinel lookup and read-through,
* `src/tar_cache.rs`  — the LRU byte-budgeted tgz cache,
* `src/package_manager.rs` / `src/package_lock.rs` — install planning,
* `src/registry_fs.rs` and `src/lib.rs` — registry-backed reads and the
  public read orchestrator.

Conventions used throughout:
* A filesystem path is modelled either as its list of components
  (`PathC := List String`, for the component-wise walks of `fuse.rs`),
  or as a plain string / list of characters where the source manipulates
  the path textually. ASCII content is assumed, so byte indices and
  character indices coincide.
* Asynchronous I/O is modelled by passing the outcome of each storage or
  HTTP operation as an explicit argument (`Option`/`Except` values or
  look-up functions); the functions below reproduce the control flow of
  the source around those outcomes.
* Process-wide `HashMap`/`HashSet` state is modelled as association
  lists; where the source iterates a `HashMap` in arbitrary order, the
  list order is one admissible iteration order.
-/

namespace Opfs

/-! ## Path components -/

/-- A storage path as its list of components (absolute paths; the root is
`[]`).  `parent` is `dropLast`, `file_name` is the last component, and
`Path::starts_with` is component-wise `isPrefixOf`. -/
abbrev PathC := List String

/-! ## fuse.rs: sentinel path lookup (`get_fuse_link_path`, lines 78-131) -/

/-- The walk of `get_fuse_link_path` (fuse.rs lines 91-127), processed on
the reversed component list (leaf first).  `t0` is `temp.0` from the
previous iteration (initially `""`); at each step the new `temp` is
`(name, t0)`.  When the parent component is literally `node_modules` and
`temp.0` is non-empty the sentinel path is built exactly as in the
source: single known component, or scoped `@`-pair, or non-scoped with a
subpath. -/
def fuseWalk : String → List String → Option PathC
  | _, [] => none
  | t0, name :: rest =>
    let hit : Option PathC :=
      match rest with
      | [] => none
      | parentName :: _ =>
        if parentName = "node_modules" ∧ name ≠ "" then
          let parent : PathC := rest.reverse
          if t0 = "" then
            some (parent ++ [name, "fuse.link"])
          else if name.data.head? = some '@' then
            some (parent ++ [name, t0, "fuse.link"])
          else
            some (parent ++ [name, "fuse.link"])
        else none
    match hit with
    | some r => some r
    | none => fuseWalk name rest

/-- The cache fast path of `get_fuse_link_path` (fuse.rs lines 83-89):
return the first cached `fuse.link` key whose parent directory is a
component-wise prefix of the looked-up path.  The list order stands for
one admissible `HashMap` iteration order. -/
def findCachedFuseKey (cache : List PathC) (p : PathC) : Option PathC :=
  cache.find? (fun key => key.dropLast.isPrefixOf p)

/-- `get_fuse_link_path` (fuse.rs lines 78-131): consult the process-wide
sentinel cache first, then fall back to the ancestry walk. -/
def getFuseLinkPath (cache : List PathC) (p : PathC) : Option PathC :=
  match findCachedFuseKey cache p with
  | some k => some k
  | none => fuseWalk "" p.reverse

/-! ## fuse.rs: target resolution and read-through (lines 134-282)

Strings are modelled as lists of characters here because the source
manipulates the path text directly (`starts_with`, index arithmetic,
concatenation). -/

abbrev Str := List Char

/-- Rust `str::trim` (ASCII model): drop whitespace from both ends. -/
def trimChars (s : Str) : Str :=
  ((s.dropWhile Char.isWhitespace).reverse.dropWhile Char.isWhitespace).reverse

/-- Rust `content.lines().next().unwrap_or("")`: the text up to the first
newline, with a trailing carriage return removed. -/
def firstLine (content : Str) : Str :=
  let l := content.takeWhile (fun c => c ≠ '\n')
  if l.getLast? = some '\r' then l.dropLast else l

/-- The sentinel-content parse of `get_fuse_link_target_path` (fuse.rs
lines 169-173 and 199-204): the trimmed first line, whole, is the target
directory; an empty first line means "not applicable".  No character of
the line (in particular no `|`) is treated specially. -/
def fuseLinkTargetDir (content : Str) : Option Str :=
  let t := trimChars (firstLine content)
  if t = [] then none else some t

/-- The path arithmetic of `get_fuse_link_target_path` (fuse.rs lines
211-235): check `path_str.starts_with(fuse_link_dir_str)`, skip one
separator character, and concatenate `"{target_dir}/{relative}"`. -/
def resolveFuseTarget (fuseLinkDir pathStr targetDir : Str) :
    Except String (Str × Str) :=
  if fuseLinkDir.isPrefixOf pathStr then
    let relStart := fuseLinkDir.length +
      (if pathStr.length > fuseLinkDir.length ∧
          (pathStr.get? fuseLinkDir.length = some '/' ∨
           pathStr.get? fuseLinkDir.length = some '\\')
       then 1 else 0)
    let rel := pathStr.drop relStart
    let targetPath := if rel = [] then targetDir else targetDir ++ '/' :: rel
    .ok (targetPath, rel)
  else
    .error "Path is not under fuse.link directory"

/-- `get_fuse_link_target_path` (fuse.rs lines 134-236) given the outcome
of obtaining the sentinel content (`none` models a failed
`read_to_string`, which the source downgrades to `Ok(None)`). -/
def getFuseLinkTargetPath (sentinelContent : Option Str)
    (fuseLinkDir pathStr : Str) : Except String (Option (Str × Str)) :=
  match sentinelContent with
  | none => .ok none
  | some content =>
    match fuseLinkTargetDir content with
    | none => .ok none
    | some t =>
      match resolveFuseTarget fuseLinkDir pathStr t with
      | .error e => .error e
      | .ok r => .ok (some r)

/-- `try_read_through_fuse_link` (fuse.rs lines 239-282): resolve the
target path, then read it directly from storage; a storage read failure
is downgraded to `Ok(None)`.  `storageRead` is the storage collaborator
(`tokio_fs_ext::read`). -/
def tryReadThroughFuseLink (sentinelContent : Option Str)
    (fuseLinkDir pathStr : Str) (storageRead : Str → Option (List Nat)) :
    Except String (Option (List Nat)) :=
  match getFuseLinkTargetPath sentinelContent fuseLinkDir pathStr with
  | .error e => .error e
  | .ok none => .ok none
  | .ok (some (targetPath, _rel)) =>
    match storageRead targetPath with
    | some content => .ok (some content)
    | none => .ok none

/-- Modelled from the spec (§4.3 step 3, absent from the source): "Parse
the content at the first `|`: left ⇒ target path; right ⇒ optional
prefix (archive mode if present)."  Used only to compare the behaviour
of the source against the specified parse. -/
def specParseSentinel (line : Str) : Str × Option Str :=
  let left := line.takeWhile (fun c => c ≠ '|')
  match line.dropWhile (fun c => c ≠ '|') with
  | [] => (line, none)
  | _ :: suffix => (left, some suffix)

/-- The directory fusion of `try_read_dir_through_fuse_link` (fuse.rs
lines 317-356): when the physical listing at the consumer path succeeds,
entries named `fuse.link` are filtered from it and the entries of the
target are appended unfiltered; when the physical read fails (`none`), the
target entries are returned as-is (lines 327-334). -/
def fusedListing (originalEntries : Option (List String))
    (targetEntries : List String) : List String :=
  match originalEntries with
  | none => targetEntries
  | some orig => orig.filter (fun n => n ≠ "fuse.link") ++ targetEntries

/-! ## tar_cache.rs: the byte-budgeted LRU tgz cache -/

/-- `TgzCacheEntry` (tar_cache.rs lines 23-27) keyed by its archive path.
`lastAccessed` is the `Instant` tick; file contents are byte lists. -/
structure TgzEntry where
  key : String
  files : List (String × List Nat)
  totalSize : Nat
  lastAccessed : Nat
deriving Repr, DecidableEq

/-- `TarCache` (tar_cache.rs lines 30-34); the `HashMap` is an
association list in one admissible iteration order. -/
structure TarCache where
  entries : List TgzEntry
  currentSize : Nat
  maxSize : Nat
deriving Repr, DecidableEq

/-- Sum of the `total_size` fields of the cached archives. -/
def cacheSum (l : List TgzEntry) : Nat := (l.map (fun e => e.totalSize)).sum

/-- Rust `Iterator::min_by_key(|(_, e)| e.last_accessed)`: the first
minimal element in iteration order (tar_cache.rs lines 82-86). -/
def findOldest : List TgzEntry → Option TgzEntry
  | [] => none
  | e :: rest =>
    match findOldest rest with
    | none => some e
    | some m => if e.lastAccessed ≤ m.lastAccessed then some e else some m

/-- `HashMap::remove(&key)`: drop the (unique) entry with that key. -/
def eraseKey (k : String) : List TgzEntry → List TgzEntry
  | [] => []
  | e :: rest => if e.key = k then rest else e :: eraseKey k rest

/-- `HashMap::get(&key)` / the value returned by `remove`. -/
def lookupKey (k : String) : List TgzEntry → Option TgzEntry
  | [] => none
  | e :: rest => if e.key = k then some e else lookupKey k rest

/-- `TarCache::evict_oldest` (tar_cache.rs lines 81-93): remove the
least-recently-accessed entry and subtract its size. -/
def evictOldest (c : TarCache) : TarCache :=
  match findOldest c.entries with
  | none => c
  | some m =>
    match lookupKey m.key c.entries with
    | none => c
    | some e =>
      { c with entries := eraseKey m.key c.entries
               currentSize := c.currentSize - e.totalSize }

/-- The eviction `while` loops of `put_tgz` (condition
`current_size + needed > max_size && !cache.is_empty()`, tar_cache.rs
lines 62-64) and of `set_max_size` (`needed = 0`, lines 250-252).  Each
pass evicts exactly one entry, so running with `fuel = entries.length`
computes the fixed point of the loop. -/
def evictWhile (fuel : Nat) (c : TarCache) (needed : Nat) : TarCache :=
  match fuel with
  | 0 => c
  | fuel' + 1 =>
    if c.currentSize + needed > c.maxSize ∧ c.entries ≠ [] then
      evictWhile fuel' (evictOldest c) needed
    else c

/-- `TarCache::put_tgz` (tar_cache.rs lines 57-79): refuse archives
larger than the whole budget; evict until the newcomer fits; drop any
previous entry under the same key; insert and account the new size. -/
def putTgz (c : TarCache) (k : String) (files : List (String × List Nat))
    (totalSize : Nat) (now : Nat) : TarCache :=
  if totalSize > c.maxSize then c
  else
    let c1 := evictWhile c.entries.length c totalSize
    let c2 :=
      match lookupKey k c1.entries with
      | some old =>
        { c1 with entries := eraseKey k c1.entries
                  currentSize := c1.currentSize - old.totalSize }
      | none => c1
    { c2 with entries := c2.entries ++ [⟨k, files, totalSize, now⟩]
              currentSize := c2.currentSize + totalSize }

/-- `set_max_size` (tar_cache.rs lines 247-254): install the new budget,
then evict until `current_size ≤ max_size` or the cache is empty. -/
def setMaxSize (c : TarCache) (m : Nat) : TarCache :=
  let c1 : TarCache := { c with maxSize := m }
  evictWhile c1.entries.length c1 0

/-- Well-formedness of the cache: the size accumulator agrees with the
entries, and the accounted total respects the budget. -/
def TarCache.wf (c : TarCache) : Prop :=
  c.currentSize = cacheSum c.entries ∧ c.currentSize ≤ c.maxSize

/-! ## package_lock.rs: the lockfile model -/

/-- The text after the last `/` of a string (the whole string when it
has no `/`).  This is Rust's `s.rsplit('/').next()` and, equally,
`s.split('/').last()`: both always yield at least one segment, so their
`unwrap_or` fallbacks are unreachable. -/
def lastSlashSegment (s : String) : String :=
  ((s.data.reverse.takeWhile (fun c => c ≠ '/')).reverse).asString

/-- `LockPackage` (package_lock.rs lines 5-32), restricted to the fields
the installer reads. -/
structure LockPackage where
  name : Option String := none
  version : Option String := none
  resolved : Option String := none
  integrity : Option String := none
  shasum : Option String := none
  dev : Option Bool := none
  optional : Option Bool := none
  os : Option (List String) := none
  cpu : Option (List String) := none
deriving Repr, DecidableEq

/-- `LockPackage::get_name` (package_lock.rs lines 36-45): the recorded
name, else `"root"` for the root entry, else the last `/`-segment of the
install path. -/
def LockPackage.getName (pkg : LockPackage) (path : String) : String :=
  match pkg.name with
  | some n => n
  | none =>
    if path = "" then "root"
    else lastSlashSegment path

/-- `LockPackage::get_version` (package_lock.rs lines 47-51). -/
def LockPackage.getVersion (pkg : LockPackage) : String :=
  pkg.version.getD "unknown"

/-! ## package_manager.rs: install planning -/

/-- `PackagePaths` (package_manager.rs lines 197-216). -/
structure PackagePaths where
  tgzStorePath : String
  unpackedDir : String
  resolvedMarker : String
  linkTargetDir : String
deriving Repr, DecidableEq

/-- `PackagePaths::new` (package_manager.rs lines 205-215): store paths
derived from the package name and the last URL segment. -/
def PackagePaths.new (name tgzUrl pathKey : String) : PackagePaths :=
  let tgzFileName := lastSlashSegment tgzUrl
  { tgzStorePath := "/stores/" ++ name ++ "/-/" ++ tgzFileName
    unpackedDir := "/stores/" ++ name ++ "/-/" ++ tgzFileName ++ "-unpack"
    resolvedMarker :=
      "/stores/" ++ name ++ "/-/" ++ tgzFileName ++ "-unpack._resolved"
    linkTargetDir := pathKey }

/-- The per-entry tuple built by `install_deps` (package_manager.rs
lines 21-35). -/
structure PkgTuple where
  name : String
  version : String
  resolved : Option String
  integrity : Option String
  shasum : Option String
  pathKey : String
deriving Repr, DecidableEq

/-- Planning step 0 of `install_deps` (package_manager.rs lines 21-35):
drop the root entry (empty path) and keep name, version, resolved URL,
hashes and install path for every other entry. -/
def prepareTuples (packages : List (String × LockPackage)) : List PkgTuple :=
  (packages.filter (fun p => p.1 ≠ "")).map
    (fun p =>
      ⟨p.2.getName p.1, p.2.getVersion, p.2.resolved, p.2.integrity,
       p.2.shasum, p.1⟩)

/-- The answers of the storage collaborator to the two `metadata` probes. -/
structure Fs where
  isFile : String → Bool
  isDir : String → Bool

/-- The cache check of `install_deps` (package_manager.rs lines 51-61):
the `_resolved` marker exists as a regular file and the unpack path
exists as a directory. -/
def isCachedInstall (fs : Fs) (t : PkgTuple) (url : String) : Bool :=
  let paths := PackagePaths.new t.name url t.pathKey
  fs.isFile paths.resolvedMarker && fs.isDir paths.unpackedDir

/-- Step 1 of `install_deps` (package_manager.rs lines 37-68): walk the
entries; an entry without a resolved URL aborts the whole install with
`"{name}@{version}: no resolved field"`; otherwise the entry joins the
cached list or the to-download list.  Returns
`(cached_packages, packages_to_download)` in entry order. -/
def splitCached (fs : Fs) : List PkgTuple →
    Except String (List PkgTuple × List PkgTuple)
  | [] => .ok ([], [])
  | t :: rest =>
    match t.resolved with
    | none => .error (t.name ++ "@" ++ t.version ++ ": no resolved field")
    | some url =>
      match splitCached fs rest with
      | .error e => .error e
      | .ok (c, d) =>
        if isCachedInstall fs t url then .ok (t :: c, d)
        else .ok (c, t :: d)

/-- The planning phase of `install_deps` (package_manager.rs lines
14-68): prepare the tuples and split them into cached packages and
download tasks.  There is no grouping of entries by resolved URL. -/
def planInstall (fs : Fs) (packages : List (String × LockPackage)) :
    Except String (List PkgTuple × List PkgTuple) :=
  splitCached fs (prepareTuples packages)

/-- The download decision of `download_tgz` (package_manager.rs lines
161-194): an HTTP GET is performed unless the store file could be read
and (`integrity` or `shasum` being present) it verified.  `verifyOk` is
the verdict of the hashing collaborator (`pack::verify_integrity`). -/
def downloadTgzDoesGet (storeRead : Option (List Nat)) (verifyOk : Bool)
    (integrity shasum : Option String) : Bool :=
  match storeRead with
  | some _ =>
    if (integrity.isSome || shasum.isSome) && verifyOk then false else true
  | none => true

/-- Whether one `install_package` task (package_manager.rs lines
108-157) issues an HTTP GET, judged against a fixed filesystem state:
the marker/unpack re-check short-circuits, otherwise `download_tgz`
decides. -/
def installPackageDoesGet (fs : Fs) (storeRead : String → Option (List Nat))
    (verifyOk : String → Bool) (t : PkgTuple) : Bool :=
  match t.resolved with
  | none => false
  | some url =>
    if isCachedInstall fs t url then false
    else
      let paths := PackagePaths.new t.name url t.pathKey
      downloadTgzDoesGet (storeRead paths.tgzStorePath)
        (verifyOk paths.tgzStorePath) t.integrity t.shasum

/-- Number of HTTP GETs issued by the download phase of `install_deps`
(package_manager.rs lines 81-88) in the interleaving where all tasks of
the `buffer_unordered` stream pass their filesystem checks before any
task completes a write — admissible whenever `max_concurrent_downloads`
is at least the number of tasks. -/
def concurrentGets (fs : Fs) (storeRead : String → Option (List Nat))
    (verifyOk : String → Bool) (tasks : List PkgTuple) : Nat :=
  (tasks.filter (fun t => installPackageDoesGet fs storeRead verifyOk t)).length

/-- Strips the `dev` / `optional` / `os` / `cpu` classification of a
lockfile entry; used to state that install planning never reads them. -/
def scrubPlatform (pkg : LockPackage) : LockPackage :=
  { pkg with dev := none, optional := none, os := none, cpu := none }

/-! ## registry_fs.rs: error policy of the HTTP read path -/

/-- Outcome of one `reqwest::get` (a transport failure, or a response
with its status and body; body-read failures are transport failures). -/
inductive HttpOutcome where
  | transportFail (msg : String)
  | response (status : Nat) (body : List Nat)
deriving Repr, DecidableEq

/-- `reqwest::StatusCode::is_success`: 2xx. -/
def statusIsSuccess (s : Nat) : Bool := 200 ≤ s && s < 300

/-- `PackageMetadata` (registry_fs.rs lines 32-38). -/
structure PackageMetadata where
  name : String
  version : String
  registryUrl : String
  installPath : String
deriving Repr, DecidableEq

/-- A `FileEntry` of the registry `?meta` listing (registry_fs.rs
lines 41-48). -/
structure FileEntry where
  path : String
  fileType : String
  size : Option Nat
deriving Repr, DecidableEq

/-- `try_read_through_registry` after initialization (registry_fs.rs
lines 627-697), as a function of the metadata lookup, the within-package
relative path, the per-file OPFS cache read, and the HTTP outcome.
Missing metadata, an empty relative path, and a non-2xx status yield
`Ok(None)`; a transport failure is surfaced as an error (the `?` on
`reqwest::get`, lines 669-671). -/
def tryReadThroughRegistryCore (metadata : Option PackageMetadata)
    (relativePath : String) (cacheRead : Option (List Nat))
    (http : HttpOutcome) : Except String (Option (List Nat)) :=
  match metadata with
  | none => .ok none
  | some _ =>
    if relativePath = "" then .ok none
    else
      let cached : Option (List Nat) :=
        match cacheRead with
        | some c => if c ≠ [] then some c else none
        | none => none
      match cached with
      | some c => .ok (some c)
      | none =>
        match http with
        | .transportFail e => .error ("HTTP request failed: " ++ e)
        | .response st body =>
          if statusIsSuccess st then .ok (some body) else .ok none

/-- `fetch_file_list` (registry_fs.rs lines 576-623), as a function of
the metadata-cache read, the HTTP outcome and the JSON parse.  Both a
transport failure and a non-2xx status are surfaced as errors (lines
591-600); directory reads (`try_read_dir_through_registry`, line 783)
propagate them with `?`. -/
def fetchFileListCore (cacheRead : Option (List FileEntry))
    (http : HttpOutcome) (parseBody : List Nat → Option (List FileEntry)) :
    Except String (List FileEntry) :=
  match cacheRead with
  | some entries => .ok entries
  | none =>
    match http with
    | .transportFail e => .error ("HTTP request failed: " ++ e)
    | .response st body =>
      if statusIsSuccess st then
        match parseBody body with
        | some entries => .ok entries
        | none => .error "Failed to parse response"
      else .error ("Failed to fetch file list: HTTP " ++ toString st)

/-! ## registry_fs.rs and lib.rs: initialization and the orchestrator -/

/-- `init_from_package_lock` (registry_fs.rs lines 185-234) as far as
its fallibility is concerned: a failed lockfile read propagates; a
failed parse is an `InvalidData` error. -/
def initFromPackageLock (lockRead : Except String String)
    (parseOk : String → Bool) : Except String Unit :=
  match lockRead with
  | .error e => .error e
  | .ok content =>
    if parseOk content then .ok ()
    else .error "Failed to parse package-lock.json"

/-- `ensure_initialized` (registry_fs.rs lines 414-427): initialize from
`./package-lock.json` when the metadata cache is empty. -/
def ensureInitialized (cacheEmpty : Bool) (lockRead : Except String String)
    (parseOk : String → Bool) : Except String Unit :=
  if cacheEmpty then initFromPackageLock lockRead parseOk else .ok ()

/-- `try_read_through_registry` including its leading
`ensure_initialized().await?` (registry_fs.rs lines 627-636); `rest` is
the remainder of the function. -/
def tryReadThroughRegistryFull (cacheEmpty : Bool)
    (lockRead : Except String String) (parseOk : String → Bool)
    (rest : Except String (Option (List Nat))) :
    Except String (Option (List Nat)) :=
  match ensureInitialized cacheEmpty lockRead parseOk with
  | .error e => .error e
  | .ok _ => rest

/-- Drop trailing `/` characters (Rust `trim_end_matches('/')`). -/
def dropTrailingSlashes (s : String) : String :=
  ((s.data.reverse.dropWhile (fun c => c = '/')).reverse).asString

/-- `is_cwd` (registry_fs.rs lines 399-411): the path equals the current
working directory or one of its explicit dot forms.  Path equality is
modelled as equality of the prepared path strings. -/
def isCwdPath (cwd p : String) : Bool :=
  p = cwd || p = cwd ++ "/." ||
  p = dropTrailingSlashes cwd ++ "." || p = dropTrailingSlashes cwd ++ "/."

/-- `is_root_node_modules` (registry_fs.rs lines 369-373). -/
def isRootNodeModules (cwd p : String) : Bool :=
  p = cwd ++ "/node_modules"

/-- The cwd-relative form of a path (registry_fs.rs lines 245-249 and
381-386): strip the cwd prefix and leading slashes. -/
def relToCwd (cwd p : String) : String :=
  if cwd.data.isPrefixOf p.data then
    ((p.data.drop cwd.data.length).dropWhile (fun c => c = '/')).asString
  else p

/-- `is_scope_directory` (registry_fs.rs lines 377-396): a
`node_modules/@scope` path with no further component. -/
def isScopeDirectory (cwd p : String) : Option String :=
  let rel := relToCwd cwd p
  if "node_modules/".data.isPrefixOf rel.data then
    let afterNm := (rel.data.drop "node_modules/".data.length).asString
    if afterNm.data.head? = some '@' && !(afterNm.data.contains '/') then
      some afterNm
    else none
  else none

/-- `try_read_dir_through_registry` (registry_fs.rs lines 700-836) as a
decision over its synthetic branches.  At the cwd the physical listing
(minus any `node_modules`) is returned with a virtual `node_modules`
entry appended, without consulting the lockfile (lines 708-741); the
root-`node_modules`, scope-directory and generic branches all run
`ensure_initialized` first, so its failure propagates.  The `rest`
arguments stand for the remainders of those branches. -/
def tryReadDirThroughRegistry (cwd : String) (cacheEmpty : Bool)
    (lockRead : Except String String) (parseOk : String → Bool)
    (physListing : Except String (List String)) (p : String)
    (rootRest scopeRest genericRest : Except String (Option (List String))) :
    Except String (Option (List String)) :=
  if isCwdPath cwd p then
    let entries :=
      match physListing with
      | .ok es => es.filter (fun n => n ≠ "node_modules")
      | .error _ => []
    .ok (some (entries ++ ["node_modules"]))
  else if isRootNodeModules cwd p then
    match ensureInitialized cacheEmpty lockRead parseOk with
    | .error e => .error e
    | .ok _ => rootRest
  else
    match isScopeDirectory cwd p with
    | some _ =>
      match ensureInitialized cacheEmpty lockRead parseOk with
      | .error e => .error e
      | .ok _ => scopeRest
    | none =>
      match ensureInitialized cacheEmpty lockRead parseOk with
      | .error e => .error e
      | .ok _ => genericRest

/-- The public `read` (lib.rs lines 19-37): registry-fs first (errors
propagate), then fuse-link, then direct storage. -/
def publicRead (registryResult : Except String (Option (List Nat)))
    (fuseResult : Except String (Option (List Nat)))
    (directRead : Except String (List Nat)) : Except String (List Nat) :=
  match registryResult with
  | .error e => .error e
  | .ok (some c) => .ok c
  | .ok none =>
    match fuseResult with
    | .error e => .error e
    | .ok (some c) => .ok c
    | .ok none => directRead

/-- The public `read_dir` (lib.rs lines 40-57): same layering as
`read`. -/
def publicReadDir (registryResult : Except String (Option (List String)))
    (fuseResult : Except String (Option (List String)))
    (directRead : Except String (List String)) : Except String (List String) :=
  match registryResult with
  | .error e => .error e
  | .ok (some es) => .ok es
  | .ok none =>
    match fuseResult with
    | .error e => .error e
    | .ok (some es) => .ok es
    | .ok none => directRead

/-! ## Auxiliary definitions for stating the properties -/

/-- The cached test `splitCached` applies to a tuple, as a predicate:
an entry counts as cached when it has a resolved URL and the
marker/unpack pair checks out. -/
def tupleCached (fs : Fs) (t : PkgTuple) : Bool :=
  match t.resolved with
  | some url => isCachedInstall fs t url
  | none => false

/-- A storage state in which nothing exists. -/
def emptyFs : Fs := ⟨fun _ => false, fun _ => false⟩

/-- A concrete archive URL shared by two lockfile entries. -/
def isNumberUrl : String :=
  "https://registry.npmjs.org/is-number/-/is-number-7.0.0.tgz"

/-- A concrete lockfile entry resolving to `isNumberUrl`. -/
def isNumberPkg : LockPackage :=
  { name := some "is-number", version := some "7.0.0",
    resolved := some isNumberUrl }

/-- A lockfile with a root entry and two entries sharing one resolved
URL (the deduplication scenario of the spec, Scenario B). -/
def dupUrlLock : List (String × LockPackage) :=
  [("", { name := some "demo", version := some "1.0.0" }),
   ("node_modules/is-number", isNumberPkg),
   ("node_modules/other/node_modules/is-number", isNumberPkg)]

/-- The download tuple of the first `is-number` entry. -/
def isNumberTuple1 : PkgTuple :=
  ⟨"is-number", "7.0.0", some isNumberUrl, none, none,
   "node_modules/is-number"⟩

/-- The download tuple of the second (nested) `is-number` entry. -/
def isNumberTuple2 : PkgTuple :=
  ⟨"is-number", "7.0.0", some isNumberUrl, none, none,
   "node_modules/other/node_modules/is-number"⟩

/-- A lockfile with one valid entry and one entry lacking a resolved
URL. -/
def missingResolvedLock : List (String × LockPackage) :=
  [("", { name := some "demo" }),
   ("node_modules/lodash",
    { name := some "lodash", version := some "4.17.21",
      resolved :=
        some "https://registry.npmjs.org/lodash/-/lodash-4.17.21.tgz" }),
   ("node_modules/invalid-package",
    { name := some "invalid-package", version := some "1.0.0" })]

/-- A lockfile whose only dependency is optional and platform
constrained (Scenario D of the spec). -/
def platformLock : List (String × LockPackage) :=
  [("", { name := some "demo" }),
   ("node_modules/native-arm64",
    { name := some "native-arm64", version := some "1.0.0",
      resolved := some
        "https://registry.npmjs.org/native-arm64/-/native-arm64-1.0.0.tgz",
      optional := some true, os := some ["darwin"], cpu := some ["arm64"] })]

/-- The download tuple of the `native-arm64` entry. -/
def nativeArm64Tuple : PkgTuple :=
  ⟨"native-arm64", "1.0.0",
   some "https://registry.npmjs.org/native-arm64/-/native-arm64-1.0.0.tgz",
   none, none, "node_modules/native-arm64"⟩

/-- A concrete registry metadata record. -/
def isNumberMeta : PackageMetadata :=
  ⟨"is-number", "7.0.0", "https://registry.npmjs.org",
   "node_modules/is-number"⟩

/-- A concrete well-formed tar cache: two archives of 30 and 50 bytes
under a 100-byte budget. -/
def exampleCache : TarCache :=
  ⟨[⟨"/stores/a/-/a.tgz", [], 30, 1⟩, ⟨"/stores/b/-/b.tgz", [], 50, 2⟩],
   80, 100⟩

/-! ## Helper lemmas -/

theorem resolveFuseTarget_append (dir rel t : Str) :
    resolveFuseTarget dir (dir ++ '/' :: rel) t =
      .ok (if rel = [] then t else t ++ '/' :: rel, rel) := by
  have hpre : dir.isPrefixOf (dir ++ '/' :: rel) = true := by
    rw [List.isPrefixOf_iff_prefix]; exact List.prefix_append dir _
  have hlen : (dir ++ '/' :: rel).length > dir.length := by simp
  have hget : (dir ++ '/' :: rel).get? dir.length = some '/' := by
    rw [List.get?_eq_getElem?, List.getElem?_append_right (Nat.le_refl _)]
    simp
  have hdrop : (dir ++ '/' :: rel).drop (dir.length + 1) = rel := by
    simp [List.drop_append]
  simp only [resolveFuseTarget, hpre, if_pos, hlen, hget, true_and, if_true]
  simp [hdrop, hlen, hget]

theorem cacheSum_append_single (l : List TgzEntry) (e : TgzEntry) :
    cacheSum (l ++ [e]) = cacheSum l + e.totalSize := by
  simp [cacheSum]

theorem findOldest_mem {l : List TgzEntry} {m : TgzEntry}
    (h : findOldest l = some m) : m ∈ l := by
  induction l with
  | nil => cases h
  | cons e rest ih =>
    simp only [findOldest] at h
    cases hf : findOldest rest with
    | none =>
      simp only [hf] at h
      cases h
      exact List.mem_cons_self _ _
    | some m' =>
      simp only [hf] at h
      by_cases hle : e.lastAccessed ≤ m'.lastAccessed
      · simp only [if_pos hle] at h; cases h; exact List.mem_cons_self _ _
      · simp only [if_neg hle] at h; cases h
        exact List.mem_cons_of_mem _ (ih hf)

theorem findOldest_isSome {l : List TgzEntry} (h : l ≠ []) :
    ∃ m, findOldest l = some m := by
  cases l with
  | nil => exact absurd rfl h
  | cons e rest =>
    simp only [findOldest]
    cases hf : findOldest rest with
    | none => exact ⟨e, rfl⟩
    | some m' =>
      by_cases hle : e.lastAccessed ≤ m'.lastAccessed
      · exact ⟨e, by simp only [if_pos hle]⟩
      · exact ⟨m', by simp only [if_neg hle]⟩

theorem lookupKey_of_mem {l : List TgzEntry} {m : TgzEntry} (h : m ∈ l) :
    ∃ e, lookupKey m.key l = some e := by
  induction l with
  | nil => cases h
  | cons u rest ih =>
    by_cases hk : u.key = m.key
    · exact ⟨u, by simp [lookupKey, hk]⟩
    · rcases List.mem_cons.mp h with h | h
      · subst h; exact absurd rfl hk
      · obtain ⟨e, he⟩ := ih h
        exact ⟨e, by simp [lookupKey, hk, he]⟩

theorem eraseKey_sum {l : List TgzEntry} {k : String} {e : TgzEntry}
    (h : lookupKey k l = some e) :
    cacheSum (eraseKey k l) + e.totalSize = cacheSum l := by
  induction l with
  | nil => cases h
  | cons u rest ih =>
    by_cases hk : u.key = k
    · simp only [lookupKey, if_pos hk] at h
      cases h
      simp [eraseKey, hk, cacheSum]
      omega
    · simp only [lookupKey, if_neg hk] at h
      have := ih h
      simp only [eraseKey, if_neg hk, cacheSum, List.map_cons,
        List.sum_cons] at this ⊢
      omega

theorem eraseKey_length {l : List TgzEntry} {k : String} {e : TgzEntry}
    (h : lookupKey k l = some e) :
    (eraseKey k l).length + 1 = l.length := by
  induction l with
  | nil => cases h
  | cons u rest ih =>
    by_cases hk : u.key = k
    · simp [eraseKey, hk]
    · simp only [lookupKey, if_neg hk] at h
      simp [eraseKey, hk, ih h]

theorem evictOldest_spec (c : TarCache) (hne : c.entries ≠ [])
    (hsum : c.currentSize = cacheSum c.entries) :
    (evictOldest c).entries.length + 1 = c.entries.length ∧
    (evictOldest c).currentSize = cacheSum (evictOldest c).entries ∧
    (evictOldest c).maxSize = c.maxSize := by
  obtain ⟨m, hm⟩ := findOldest_isSome hne
  obtain ⟨e, he⟩ := lookupKey_of_mem (findOldest_mem hm)
  have hsz := eraseKey_sum he
  have hln := eraseKey_length he
  simp only [evictOldest, hm, he]
  refine ⟨hln, by omega, by trivial⟩

theorem evictWhile_spec (fuel : Nat) :
    ∀ (c : TarCache) (needed : Nat),
    c.currentSize = cacheSum c.entries →
    c.entries.length ≤ fuel →
    (evictWhile fuel c needed).currentSize =
        cacheSum (evictWhile fuel c needed).entries ∧
    (evictWhile fuel c needed).maxSize = c.maxSize ∧
    ((evictWhile fuel c needed).currentSize + needed ≤
        (evictWhile fuel c needed).maxSize ∨
      (evictWhile fuel c needed).entries = []) := by
  induction fuel with
  | zero =>
    intro c needed hsum hlen
    have hnil : c.entries = [] := List.length_eq_zero.mp (Nat.le_zero.mp hlen)
    exact ⟨hsum, rfl, Or.inr hnil⟩
  | succ fuel ih =>
    intro c needed hsum hlen
    simp only [evictWhile]
    by_cases hcond : c.currentSize + needed > c.maxSize ∧ c.entries ≠ []
    · rw [if_pos hcond]
      obtain ⟨hl, hs, hmax⟩ := evictOldest_spec c hcond.2 hsum
      have hlen2 : (evictOldest c).entries.length ≤ fuel := by omega
      obtain ⟨a, b, d⟩ := ih (evictOldest c) needed hs hlen2
      exact ⟨a, by rw [b, hmax], d⟩
    · rw [if_neg hcond]
      refine ⟨hsum, rfl, ?_⟩
      by_cases hne : c.entries = []
      · exact Or.inr hne
      · rcases not_and_or.mp hcond with hfit | hcontra
        · exact Or.inl (by omega)
        · exact absurd hne (not_not.mp hcontra ▸ fun h => h rfl)

theorem putTgz_wf (c : TarCache) (k : String) (files : List (String × List Nat))
    (totalSize now : Nat) (h : c.wf) :
    (putTgz c k files totalSize now).wf ∧
    (totalSize > c.maxSize → putTgz c k files totalSize now = c) := by
  obtain ⟨hsum, hle⟩ := h
  constructor
  · unfold putTgz
    by_cases hbig : totalSize > c.maxSize
    · rw [if_pos hbig]; exact ⟨hsum, hle⟩
    · rw [if_neg hbig]
      obtain ⟨h1sum, h1max, h1post⟩ :=
        evictWhile_spec c.entries.length c totalSize hsum (Nat.le_refl _)
      set c1 := evictWhile c.entries.length c totalSize with hc1
      cases hlk : lookupKey k c1.entries with
      | none =>
        simp only [hlk]
        refine ⟨?_, ?_⟩
        · simp only [cacheSum_append_single]
          omega
        · simp only
          rcases h1post with hfit | hempty
          · omega
          · have h0 : c1.currentSize = 0 := by
              rw [h1sum, hempty]; rfl
            omega
      | some old =>
        simp only [hlk]
        have hesum := eraseKey_sum hlk
        refine ⟨?_, ?_⟩
        · simp only [cacheSum_append_single]
          omega
        · simp only
          rcases h1post with hfit | hempty
          · omega
          · rw [hempty] at hlk; cases hlk
  · intro hbig
    unfold putTgz
    rw [if_pos hbig]

theorem setMaxSize_wf (c : TarCache) (m : Nat)
    (hsum : c.currentSize = cacheSum c.entries) :
    (setMaxSize c m).wf := by
  obtain ⟨h1sum, h1max, h1post⟩ :=
    evictWhile_spec c.entries.length { c with maxSize := m } 0 hsum
      (Nat.le_refl _)
  have hgoal :
      setMaxSize c m =
        evictWhile c.entries.length { c with maxSize := m } 0 := rfl
  rw [TarCache.wf, hgoal]
  refine ⟨h1sum, ?_⟩
  rcases h1post with hfit | hempty
  · omega
  · rw [h1sum, hempty]
    exact Nat.zero_le _

theorem splitCached_no_grouping (fs : Fs) (ts : List PkgTuple)
    (h : ∀ t ∈ ts, t.resolved ≠ none) :
    splitCached fs ts =
      .ok (ts.filter (fun t => tupleCached fs t),
           ts.filter (fun t => !tupleCached fs t)) := by
  induction ts with
  | nil => rfl
  | cons t rest ih =>
    have ht : t.resolved ≠ none := h t (List.mem_cons_self t rest)
    have hrest : ∀ u ∈ rest, u.resolved ≠ none :=
      fun u hu => h u (List.mem_cons_of_mem t hu)
    cases hres : t.resolved with
    | none => exact absurd hres ht
    | some url =>
      simp only [splitCached, hres, ih hrest]
      by_cases hc : isCachedInstall fs t url
      · simp [hc, tupleCached, hres, List.filter_cons]
      · simp [hc, tupleCached, hres, List.filter_cons]

theorem splitCached_error_of_missing (fs : Fs) (ts : List PkgTuple)
    (t : PkgTuple) (hmem : t ∈ ts) (hnone : t.resolved = none) :
    ∃ e, splitCached fs ts = .error e := by
  induction ts with
  | nil => cases hmem
  | cons u rest ih =>
    cases hu : u.resolved with
    | none =>
      exact ⟨u.name ++ "@" ++ u.version ++ ": no resolved field",
        by simp [splitCached, hu]⟩
    | some url =>
      rcases List.mem_cons.mp hmem with h | h
      · subst h; rw [hu] at hnone; cases hnone
      · obtain ⟨e, he⟩ := ih h
        exact ⟨e, by simp [splitCached, hu, he]⟩

/-! ## Claim C1 — sentinel parsing and archive mode -/

/-- C1, counterexample.  For a sentinel content of the lazy-install
form `ARCHIVE|package` (an archive store path, a bar, the prefix) the
fuse-link layer keeps the whole trimmed first line — bar included — as
the target (first
conjunct), whereas the parse the spec describes would split it into the
archive path and the prefix `package` (second to fourth conjuncts); the
subsequent file read is answered by plain storage at the unsplit
concatenated path, not by any tar-cache lookup (last conjunct). -/
theorem fuse_pipe_unparsed_counterexample :
    fuseLinkTargetDir ("/stores/a/-/a-1.0.0.tgz|package\n".data) =
      some ("/stores/a/-/a-1.0.0.tgz|package".data) ∧
    (specParseSentinel ("/stores/a/-/a-1.0.0.tgz|package".data)).1 =
      "/stores/a/-/a-1.0.0.tgz".data ∧
    (specParseSentinel ("/stores/a/-/a-1.0.0.tgz|package".data)).2 =
      some ("package".data) ∧
    some ("/stores/a/-/a-1.0.0.tgz|package".data) ≠
      some ("/stores/a/-/a-1.0.0.tgz".data) ∧
    tryReadThroughFuseLink (some ("/stores/a/-/a-1.0.0.tgz|package\n".data))
        ("/proj/node_modules/a".data) ("/proj/node_modules/a/index.js".data)
        (fun q => if q = "/stores/a/-/a-1.0.0.tgz|package/index.js".data
                  then some [55] else none) =
      .ok (some [55]) :=
  ⟨by decide, by decide, by decide, by decide, by rfl⟩

/-- C1 (amended): the fuse-link layer never parses the sentinel content
at a `|`; the entire trimmed first line is the directory target, and
reading a file under the sentinel directory delegates to plain storage
at `target/REL` (the storage answer, hit or miss, is returned as the
layer result) — there is no archive mode and no tar-cache
delegation. -/
theorem fuse_read_is_directory_mode (content t dir rel : Str)
    (storage : Str → Option (List Nat))
    (h : fuseLinkTargetDir content = some t) :
    tryReadThroughFuseLink (some content) dir (dir ++ '/' :: rel) storage =
      .ok (storage (if rel = [] then t else t ++ '/' :: rel)) := by
  simp only [tryReadThroughFuseLink, getFuseLinkTargetPath, h,
    resolveFuseTarget_append]
  cases storage (if rel = [] then t else t ++ '/' :: rel) <;> simp

/-- C1, witness for `fuse_read_is_directory_mode` at a concrete
sentinel. -/
theorem fuse_read_is_directory_mode_witness :
    fuseLinkTargetDir ("/stores/x-unpack\n".data) =
      some ("/stores/x-unpack".data) ∧
    tryReadThroughFuseLink (some ("/stores/x-unpack\n".data))
        ("/proj/node_modules/x".data)
        ("/proj/node_modules/x".data ++ '/' :: "index.js".data)
        (fun _ => some [1]) =
      .ok (some [1]) :=
  ⟨by decide,
   fuse_read_is_directory_mode "/stores/x-unpack\n".data
     "/stores/x-unpack".data "/proj/node_modules/x".data "index.js".data
     (fun _ => some [1]) (by decide)⟩

/-! ## Claim C2 — innermost sentinel under the cache fast path -/

/-- C2: with the sentinel of the outer package `c` present in the
process-wide cache, `get_fuse_link_path` applied to a path inside the
nested package `d` returns the outer sentinel
`proj/node_modules/c/fuse.link` (first conjunct), although the ancestry
walk — and the documented contract of the function — give the innermost
sentinel `proj/node_modules/c/node_modules/d/fuse.link` (second
conjunct); the two differ (third conjunct).  This evaluates the code at
the failing input of the C2 claim. -/
theorem cached_outer_sentinel_shadows_inner :
    getFuseLinkPath [["proj", "node_modules", "c", "fuse.link"]]
        ["proj", "node_modules", "c", "node_modules", "d", "types.js"] =
      some ["proj", "node_modules", "c", "fuse.link"] ∧
    getFuseLinkPath []
        ["proj", "node_modules", "c", "node_modules", "d", "types.js"] =
      some ["proj", "node_modules", "c", "node_modules", "d", "fuse.link"] ∧
    (["proj", "node_modules", "c", "fuse.link"] : PathC) ≠
      ["proj", "node_modules", "c", "node_modules", "d", "fuse.link"] :=
  ⟨by decide, by decide, by decide⟩

/-! ## Claim C3 — no grouping by resolved URL -/

/-- C3, counterexample.  A lockfile whose two dependency entries share
one resolved URL is planned into two separate download tasks carrying
the same URL (no group is formed), and in the admissible concurrent
interleaving both tasks perform an HTTP GET — two GETs for one URL in a
single install invocation. -/
theorem duplicate_url_two_downloads_counterexample :
    planInstall emptyFs dupUrlLock =
      .ok ([], [isNumberTuple1, isNumberTuple2]) ∧
    isNumberTuple1.resolved = some isNumberUrl ∧
    isNumberTuple2.resolved = some isNumberUrl ∧
    concurrentGets emptyFs (fun _ => none) (fun _ => false)
      [isNumberTuple1, isNumberTuple2] = 2 :=
  ⟨by rfl, by rfl, by rfl, by rfl⟩

/-- C3 (amended): `install_deps` performs no grouping by resolved URL:
whenever every dependency entry has a resolved URL, the plan is exactly
the entry list split by the cache check, duplicates of the same URL
preserved as separate download tasks; deduplication is only the
opportunistic store-cache check inside each task. -/
theorem install_plan_no_url_grouping (fs : Fs)
    (packages : List (String × LockPackage))
    (h : ∀ q ∈ packages, q.1 ≠ "" → q.2.resolved ≠ none) :
    planInstall fs packages =
      .ok ((prepareTuples packages).filter (fun t => tupleCached fs t),
           (prepareTuples packages).filter (fun t => !tupleCached fs t)) := by
  apply splitCached_no_grouping
  intro t ht
  simp only [prepareTuples, List.mem_map, List.mem_filter] at ht
  obtain ⟨q, ⟨hq, hne⟩, rfl⟩ := ht
  exact h q hq (by simpa using hne)

/-- C3, witness for `install_plan_no_url_grouping` on the concrete
duplicated-URL lockfile. -/
theorem install_plan_no_url_grouping_witness :
    (∀ q ∈ dupUrlLock, q.1 ≠ "" → q.2.resolved ≠ none) ∧
    planInstall emptyFs dupUrlLock =
      .ok ((prepareTuples dupUrlLock).filter (fun t => tupleCached emptyFs t),
           (prepareTuples dupUrlLock).filter
             (fun t => !tupleCached emptyFs t)) :=
  ⟨by decide, install_plan_no_url_grouping emptyFs dupUrlLock (by decide)⟩

/-! ## Claim C4 — entries without a resolved URL -/

/-- C4, counterexample.  A lockfile with one valid entry and one entry
lacking a resolved URL makes the whole install fail with the error
`"invalid-package@1.0.0: no resolved field"`; the remaining entry is
not installed — nothing is skipped with a warning. -/
theorem missing_resolved_error_counterexample :
    planInstall emptyFs missingResolvedLock =
      .error "invalid-package@1.0.0: no resolved field" := by rfl

/-- C4 (amended): any dependency entry without a resolved URL aborts
the whole `install_deps` invocation with an error (naming the package),
instead of being skipped with a warning. -/
theorem missing_resolved_aborts_install (fs : Fs)
    (packages : List (String × LockPackage)) (p : String) (pkg : LockPackage)
    (hmem : (p, pkg) ∈ packages) (hp : p ≠ "") (hres : pkg.resolved = none) :
    ∃ e, planInstall fs packages = .error e := by
  unfold planInstall
  apply splitCached_error_of_missing fs _
    ⟨pkg.getName p, pkg.getVersion, pkg.resolved, pkg.integrity,
     pkg.shasum, p⟩
  · unfold prepareTuples
    have hmemf : (p, pkg) ∈ packages.filter (fun q => q.1 ≠ "") :=
      List.mem_filter_of_mem hmem (by simpa using hp)
    exact List.mem_map_of_mem
      (fun q => (⟨q.2.getName q.1, q.2.getVersion, q.2.resolved,
        q.2.integrity, q.2.shasum, q.1⟩ : PkgTuple)) hmemf
  · exact hres

/-- C4, witness for `missing_resolved_aborts_install` on the concrete
lockfile. -/
theorem missing_resolved_aborts_install_witness :
    ("node_modules/invalid-package",
      ({ name := some "invalid-package", version := some "1.0.0" } :
        LockPackage)) ∈ missingResolvedLock ∧
    ∃ e, planInstall emptyFs missingResolvedLock = .error e :=
  ⟨by decide,
   missing_resolved_aborts_install emptyFs missingResolvedLock
     "node_modules/invalid-package"
     { name := some "invalid-package", version := some "1.0.0" }
     (by decide) (by decide) (by rfl)⟩

/-! ## Claim C5 — optional entries with platform constraints -/

/-- C5, counterexample.  The lockfile entry `native-arm64` with
`optional = true`, `os = ["darwin"]` and `cpu = ["arm64"]` is not
skipped: it becomes a download/install task like any other entry. -/
theorem optional_platform_entry_installed_counterexample :
    planInstall emptyFs platformLock = .ok ([], [nativeArm64Tuple]) ∧
    nativeArm64Tuple.pathKey = "node_modules/native-arm64" :=
  ⟨by rfl, by rfl⟩

/-- C5 (amended): install planning never reads the `dev`, `optional`,
`os` or `cpu` fields of a lockfile entry — erasing all of them changes
nothing in the plan; in particular no entry is skipped for being
optional and platform constrained. -/
theorem install_plan_ignores_platform_fields (fs : Fs)
    (packages : List (String × LockPackage)) :
    planInstall fs (packages.map (fun q => (q.1, scrubPlatform q.2))) =
      planInstall fs packages := by
  have hprep :
      prepareTuples (packages.map (fun q => (q.1, scrubPlatform q.2))) =
        prepareTuples packages := by
    induction packages with
    | nil => rfl
    | cons q rest ih =>
      by_cases hq : q.1 = ""
      · simpa [prepareTuples, hq, List.filter_cons] using ih
      · simp only [prepareTuples, List.map_cons, List.filter_cons] at ih ⊢
        simp only [hq, scrubPlatform] at ih ⊢
        simp_all [LockPackage.getName, LockPackage.getVersion]
  unfold planInstall
  rw [hprep]

/-! ## Claim C6 — registry-fs error policy -/

/-- C6, counterexample.  A transport failure during a registry file read
is surfaced as a hard error, not demoted to the Ok-None outcome; and a
non-2xx status during a directory-listing fetch is likewise a hard
error. -/
theorem registry_transport_error_surfaced_counterexample :
    tryReadThroughRegistryCore (some isNumberMeta) "index.js" none
      (.transportFail "connection refused") =
      .error "HTTP request failed: connection refused" ∧
    fetchFileListCore none (.response 404 []) (fun _ => none) =
      .error "Failed to fetch file list: HTTP 404" :=
  ⟨by rfl, by rfl⟩

/-- C6 (amended): on the registry file-read path only a non-2xx status
is demoted to Ok-None, while a transport failure is surfaced as an
error; on the directory-listing path both a non-2xx status and a
transport failure are surfaced as errors. -/
theorem registry_error_policy :
    (∀ (md : PackageMetadata) (rel : String) (st : Nat) (body : List Nat),
      rel ≠ "" → statusIsSuccess st = false →
      tryReadThroughRegistryCore (some md) rel none (.response st body) =
        .ok none) ∧
    (∀ (md : PackageMetadata) (rel msg : String),
      rel ≠ "" →
      tryReadThroughRegistryCore (some md) rel none (.transportFail msg) =
        .error ("HTTP request failed: " ++ msg)) ∧
    (∀ (st : Nat) (body : List Nat)
        (parse : List Nat → Option (List FileEntry)),
      statusIsSuccess st = false →
      fetchFileListCore none (.response st body) parse =
        .error ("Failed to fetch file list: HTTP " ++ toString st)) ∧
    (∀ (msg : String) (parse : List Nat → Option (List FileEntry)),
      fetchFileListCore none (.transportFail msg) parse =
        .error ("HTTP request failed: " ++ msg)) := by
  refine ⟨?_, ?_, ?_, ?_⟩
  · intro md rel st body hrel hst
    simp [tryReadThroughRegistryCore, hrel, hst]
  · intro md rel msg hrel
    simp [tryReadThroughRegistryCore, hrel]
  · intro st body parse hst
    simp [fetchFileListCore, hst]
  · intro msg parse
    simp [fetchFileListCore]

/-- C6, witness for `registry_error_policy` at concrete statuses and
messages. -/
theorem registry_error_policy_witness :
    tryReadThroughRegistryCore (some isNumberMeta) "index.js" none
        (.response 404 []) = .ok none ∧
    tryReadThroughRegistryCore (some isNumberMeta) "index.js" none
        (.transportFail "reset") = .error ("HTTP request failed: " ++ "reset") ∧
    fetchFileListCore none (.response 500 []) (fun _ => none) =
      .error ("Failed to fetch file list: HTTP " ++ toString 500) ∧
    fetchFileListCore none (.transportFail "reset") (fun _ => none) =
      .error ("HTTP request failed: " ++ "reset") :=
  ⟨registry_error_policy.1 isNumberMeta "index.js" 404 [] (by decide)
     (by decide),
   registry_error_policy.2.1 isNumberMeta "index.js" "reset" (by decide),
   registry_error_policy.2.2.1 500 [] (fun _ => none) (by decide),
   registry_error_policy.2.2.2 "reset" (fun _ => none)⟩

/-! ## Claim C7 — missing lockfile and the public reads -/

/-- C7, counterexample.  With the metadata cache empty and
`package-lock.json` unreadable, the public `read_dir` applied to the
current working directory does not return the lockfile-read error: the
cwd branch runs before any initialization and synthesizes a listing
with a virtual `node_modules` entry (here from a failing physical
read). -/
theorem read_dir_cwd_bypasses_lockfile_counterexample :
    publicReadDir
      (tryReadDirThroughRegistry "/proj" true
        (.error "ENOENT: package-lock.json") (fun _ => true)
        (.error "no such directory") "/proj"
        (.ok none) (.ok none) (.ok none))
      (.ok none) (.error "unreached direct read") =
    .ok ["node_modules"] := by rfl

/-- C7 (amended): with the metadata cache empty and the lockfile read
failing with error `e`, every public `read` returns `e` (never reaching
fuse-link or direct storage), and every public `read_dir` at a path
other than the current working directory (and its dot forms) likewise
returns `e`; only the cwd branch of `read_dir` escapes the lockfile
error. -/
theorem missing_lockfile_reads_error (cwd e : String)
    (parseOk : String → Bool) (p : String)
    (physListing : Except String (List String))
    (rootRest scopeRest genericRest : Except String (Option (List String)))
    (readRest : Except String (Option (List Nat)))
    (fuseFile : Except String (Option (List Nat)))
    (directFile : Except String (List Nat))
    (fuseDir : Except String (Option (List String)))
    (directDir : Except String (List String))
    (hp : isCwdPath cwd p = false) :
    publicRead (tryReadThroughRegistryFull true (.error e) parseOk readRest)
      fuseFile directFile = .error e ∧
    publicReadDir
      (tryReadDirThroughRegistry cwd true (.error e) parseOk physListing p
        rootRest scopeRest genericRest)
      fuseDir directDir = .error e := by
  have hinit : ensureInitialized true (.error e) parseOk = .error e := rfl
  constructor
  · simp [publicRead, tryReadThroughRegistryFull, hinit]
  · simp only [tryReadDirThroughRegistry, hp, Bool.false_eq_true, if_false]
    by_cases hroot : isRootNodeModules cwd p
    · simp [hroot, hinit, publicReadDir]
    · simp only [hroot, Bool.false_eq_true, if_false]
      cases isScopeDirectory cwd p <;> simp [hinit, publicReadDir]

/-- C7, witness for `missing_lockfile_reads_error` at a concrete
non-cwd path. -/
theorem missing_lockfile_reads_error_witness :
    publicRead
      (tryReadThroughRegistryFull true (.error "ENOENT: package-lock.json")
        (fun _ => true) (.ok none))
      (.ok none) (.error "direct") = .error "ENOENT: package-lock.json" ∧
    publicReadDir
      (tryReadDirThroughRegistry "/proj" true
        (.error "ENOENT: package-lock.json") (fun _ => true)
        (.ok ["README.md"]) "/proj/node_modules/is-number"
        (.ok none) (.ok none) (.ok none))
      (.ok none) (.error "direct") = .error "ENOENT: package-lock.json" :=
  missing_lockfile_reads_error "/proj" "ENOENT: package-lock.json"
    (fun _ => true) "/proj/node_modules/is-number" (.ok ["README.md"])
    (.ok none) (.ok none) (.ok none) (.ok none) (.ok none) (.error "direct")
    (.ok none) (.error "direct") (by decide)

/-! ## Claim C8 — scope-only paths -/

/-- C8, counterexample.  For the scope-only path
`proj/node_modules/@scope` the sentinel lookup does return a sentinel
path, `proj/node_modules/@scope/fuse.link`: the single-known-component
branch of the walk has no check for a leading `@`. -/
theorem scope_only_sentinel_counterexample :
    getFuseLinkPath [] ["proj", "node_modules", "@scope"] =
      some ["proj", "node_modules", "@scope", "fuse.link"] := by decide

/-- C8 (amended): for every directory directly under a literal
`node_modules` component — scope directories such as `@scope`
included — the lookup computes the sentinel path
`node_modules/<dir>/fuse.link`; a scope-only path is not special-cased
to "no sentinel". -/
theorem scope_only_sentinel_path (pre : PathC) (s : String) (hs : s ≠ "") :
    getFuseLinkPath [] (pre ++ ["node_modules", s]) =
      some (pre ++ ["node_modules", s, "fuse.link"]) := by
  unfold getFuseLinkPath findCachedFuseKey
  simp only [List.find?_nil]
  have hrev : (pre ++ ["node_modules", s]).reverse =
      s :: "node_modules" :: pre.reverse := by simp
  rw [hrev]
  unfold fuseWalk
  simp [hs]

/-- C8, witness for `scope_only_sentinel_path` at a concrete scope
directory. -/
theorem scope_only_sentinel_path_witness :
    ("@types" : String) ≠ "" ∧
    getFuseLinkPath [] (["proj"] ++ ["node_modules", "@types"]) =
      some (["proj"] ++ ["node_modules", "@types", "fuse.link"]) :=
  ⟨by decide, scope_only_sentinel_path ["proj"] "@types" (by decide)⟩

/-! ## Claim C9 — fuse.link in fused listings -/

/-- C9, counterexample.  When the resolved target directory itself
contains an entry named `fuse.link`, the fused listing returns it: only
the physical entries at the consumer path are filtered, the appended
target entries are not. -/
theorem target_fuse_link_listed_counterexample :
    fusedListing (some ["node_modules", "fuse.link"])
        ["fuse.link", "package.json"] =
      ["node_modules", "fuse.link", "package.json"] ∧
    "fuse.link" ∈ fusedListing (some ["node_modules", "fuse.link"])
        ["fuse.link", "package.json"] :=
  ⟨by decide, by decide⟩

/-- C9 (amended): the name `fuse.link` never survives from the physical
entries of the fused directory — whenever it appears in a fused
listing, it was contributed by the target side. -/
theorem fuse_link_only_from_target (o : Option (List String))
    (t : List String) (h : "fuse.link" ∈ fusedListing o t) :
    "fuse.link" ∈ t := by
  cases o with
  | none => exact h
  | some orig =>
    simp only [fusedListing, List.mem_append, List.mem_filter] at h
    rcases h with ⟨_, hbad⟩ | h
    · simp at hbad
    · exact h

/-- C9, witness for `fuse_link_only_from_target` at a concrete
listing. -/
theorem fuse_link_only_from_target_witness :
    ("fuse.link" ∈ fusedListing (some []) ["fuse.link"]) ∧
    "fuse.link" ∈ (["fuse.link"] : List String) :=
  ⟨by decide, fuse_link_only_from_target (some []) ["fuse.link"] (by decide)⟩

/-! ## Claim C10 — tar cache byte budget -/

/-- C10: the tar cache refuses any archive whose uncompressed total
exceeds the configured budget (first conjunct); after every admission
the cache stays well-formed, in particular the sum of the cached
archive totals is at most the budget (second conjunct); and after
lowering the budget, eviction restores the invariant (third
conjunct). -/
theorem tar_cache_budget_invariant (c : TarCache) (k : String)
    (files : List (String × List Nat)) (totalSize now m : Nat)
    (h : c.wf) :
    (totalSize > c.maxSize → putTgz c k files totalSize now = c) ∧
    (putTgz c k files totalSize now).wf ∧
    (setMaxSize c m).wf :=
  ⟨(putTgz_wf c k files totalSize now h).2,
   (putTgz_wf c k files totalSize now h).1,
   setMaxSize_wf c m h.1⟩

/-- C10, witness for `tar_cache_budget_invariant` on a concrete cache:
admitting a 40-byte archive into an 80/100 cache forces one eviction,
and lowering the budget to 10 evicts until compliant. -/
theorem tar_cache_budget_invariant_witness :
    (40 > exampleCache.maxSize →
      putTgz exampleCache "/stores/c/-/c.tgz" [] 40 3 = exampleCache) ∧
    (putTgz exampleCache "/stores/c/-/c.tgz" [] 40 3).wf ∧
    (setMaxSize exampleCache 10).wf :=
  tar_cache_budget_invariant exampleCache "/stores/c/-/c.tgz" [] 40 3 10
    ⟨by decide, by decide⟩

end Opfs
